import Mathlib

/-!
Verification of the `rostd::printx` format-string transformer
(`src/include/rostd/printx.hpp`).

The transformer walks a printf-style template character by character,
consuming one argument descriptor (`specifier`) per conversion directive,
validating flags / width / precision / length-modifier / type against the
descriptor's capability flags, and emitting a rewritten format string (or a
specific error status).

The embedding below mirrors the C++ source:
  * `Status`            — `enum class status`
  * `Specifier`         — `struct specifier` (canonical spec text plus the
                          four capability bits, modelled as four `Bool`s)
  * `specifier_class`   — `class specifier_class` / `init`
  * `copyFlags`         — the flags-copying loop of `transform_specifier`
  * `copyDigits`        — the digit-copying loop shared by width/precision
  * `width_phase`       — the `field_width_needs_int` iteration of the
                          `for (auto&& field : ...)` loop
  * `precision_phase`   — the `field_precision_needs_int` iteration
  * `type_phase`        — the final 4-character length/type scan
  * `find_specifier`, `transform_specifier` — the two mutually recursive
                          member functions of `class transformer`

A descriptor list plays the role of the sentinel-terminated `specifier`
array: the empty list is "the sentinel is current".  Each function returns
the terminal status together with the characters it appended to the output
sink, in order.
-/

namespace Rostd
namespace Printx

/-- Terminal status of one transformation pass (`enum class status`). -/
inductive Status where
  | correct
  | conversion_lacks_type
  | field_precision_needs_int
  | field_precision_not_allowed
  | field_width_needs_int
  | format_expects_char
  | format_expects_int_ptr
  | format_expects_ptr
  | format_invalid_type
  | format_not_enough_args
  | format_spurious_percent
  | format_too_many_args
deriving DecidableEq

/-- Argument descriptor (`struct specifier`): the canonical conversion spec
for the argument's type (e.g. `"d"`, `"hhd"`, `".*s"`) plus the capability
flag bits of the `enum : unsigned` in printx.hpp, one `Bool` per bit. -/
structure Specifier where
  spec : List Char
  promotes_to_int : Bool
  prints_as_pointer : Bool
  forbid_precision : Bool
  record_position : Bool
deriving DecidableEq

/-- Type classes of conversion letters (`specifier_class::category`). -/
inductive Category where
  | invalid
  | string
  | integer
  | floating_point
  | pointer
deriving DecidableEq

/-- Classification of a conversion letter (`specifier_class::init`). -/
def specifier_class (ch : Char) : Category :=
  if ch = 's' then Category.string
  else if ch = 'c' ∨ ch = 'd' ∨ ch = 'i' ∨ ch = 'u' ∨ ch = 'o' ∨ ch = 'x' ∨ ch = 'X' then
    Category.integer
  else if ch = 'f' ∨ ch = 'F' ∨ ch = 'e' ∨ ch = 'E' ∨ ch = 'g' ∨ ch = 'G' ∨ ch = 'a' ∨ ch = 'A' then
    Category.floating_point
  else if ch = 'p' ∨ ch = 'n' then Category.pointer
  else Category.invalid

/-- The flag characters accepted by the `switch` in `transform_specifier`. -/
def is_flag (c : Char) : Bool :=
  c = '-' ∨ c = '+' ∨ c = ' ' ∨ c = '#' ∨ c = '0'

/-- Decimal digit test (`*src >= '0' && *src <= '9'`). -/
def is_digit (c : Char) : Bool :=
  '0'.toNat ≤ c.toNat ∧ c.toNat ≤ '9'.toNat

/-- Last character of a spec string; `'\0'` for the empty string, matching
the C++ read of `*p` when the spec text is empty. -/
def last_char : List Char → Char
  | [] => Char.ofNat 0
  | [c] => c
  | _ :: c :: rest => last_char (c :: rest)

/-- The flags-copying loop of `transform_specifier`: copies `- + space # 0`
verbatim, returning (copied output, remaining input). -/
def copyFlags : List Char → List Char × List Char
  | [] => ([], [])
  | c :: rest =>
    if is_flag c then
      let r := copyFlags rest
      (c :: r.1, r.2)
    else ([], c :: rest)

/-- The digit-copying loop shared by the width and precision fields.
Returns the copied digits and `some remaining`, or `none` in the second
component when the input ended right after a digit (the loop's
`conversion_lacks_type` exit). -/
def copyDigits : List Char → List Char × Option (List Char)
  | [] => ([], some [])
  | c :: rest =>
    if is_digit c then
      match rest with
      | [] => ([c], none)
      | d :: rest' =>
        let r := copyDigits (d :: rest')
        (c :: r.1, r.2)
    else ([], some (c :: rest))

/-- Result of one width/precision field iteration: an error status with the
output appended during the iteration, or the appended output, the remaining
input, and the (possibly advanced) current descriptor and descriptor tail. -/
inductive Phase where
  | err (st : Status) (out : List Char)
  | ok (out : List Char) (src : List Char) (sp : Specifier) (rest : List Specifier)

/-- The width iteration of the `for (auto&& field : ...)` loop in
`transform_specifier`: an optional digit sequence, or `*` which requires the
current descriptor to promote to `int` and consumes one descriptor. -/
def width_phase (src : List Char) (sp : Specifier) (rest : List Specifier) : Phase :=
  match src with
  | [] => Phase.err Status.conversion_lacks_type []
  | c :: src' =>
    if c = '*' then
      match src' with
      | [] => Phase.err Status.conversion_lacks_type ['*']
      | d :: src'' =>
        if sp.promotes_to_int then
          match rest with
          | [] => Phase.err Status.format_not_enough_args ['*']
          | sp' :: rest' => Phase.ok ['*'] (d :: src'') sp' rest'
        else Phase.err Status.field_width_needs_int ['*']
    else
      match (copyDigits (c :: src')).2 with
      | none => Phase.err Status.conversion_lacks_type (copyDigits (c :: src')).1
      | some rem => Phase.ok (copyDigits (c :: src')).1 rem sp rest

/-- The precision iteration of the same loop: requires a leading `.` (which
is rejected outright when the current descriptor forbids precision), then a
digit sequence or `*`; a `*` requires promote-to-`int`, consumes one
descriptor, and additionally rejects a newly current descriptor that forbids
precision. -/
def precision_phase (src : List Char) (sp : Specifier) (rest : List Specifier) : Phase :=
  match src with
  | [] => Phase.err Status.conversion_lacks_type []
  | c :: src' =>
    if c = '.' then
      if sp.forbid_precision then Phase.err Status.field_precision_not_allowed []
      else
        match src' with
        | [] => Phase.err Status.conversion_lacks_type ['.']
        | d :: src'' =>
          if d = '*' then
            match src'' with
            | [] => Phase.err Status.conversion_lacks_type ['.', '*']
            | _ :: _ =>
              if sp.promotes_to_int then
                match rest with
                | [] => Phase.err Status.format_not_enough_args ['.', '*']
                | sp' :: rest' =>
                  if sp'.forbid_precision then
                    Phase.err Status.field_precision_not_allowed ['.', '*']
                  else Phase.ok ['.', '*'] src'' sp' rest'
              else Phase.err Status.field_precision_needs_int ['.', '*']
          else
            match (copyDigits (d :: src'')).2 with
            | none => Phase.err Status.conversion_lacks_type ('.' :: (copyDigits (d :: src'')).1)
            | some rem => Phase.ok ('.' :: (copyDigits (d :: src'')).1) rem sp rest
    else Phase.ok [] (c :: src') sp rest

theorem copyFlags_snd_length (src : List Char) : (copyFlags src).2.length ≤ src.length := by
  induction src with
  | nil => simp [copyFlags]
  | cons c rest ih =>
    simp only [copyFlags]
    split
    · exact le_trans ih (Nat.le_succ _)
    · simp

theorem copyDigits_some_length (src rem : List Char) :
    (copyDigits src).2 = some rem → rem.length ≤ src.length := by
  induction src with
  | nil => intro h; simp [copyDigits] at h; simp [← h]
  | cons c rest ih =>
    intro h
    rw [copyDigits.eq_def] at h
    simp only at h
    split at h
    · match rest, h with
      | [], h => simp at h
      | d :: rest', h =>
        simp only at h
        exact le_trans (ih h) (Nat.le_succ _)
    · simp at h
      simp [← h]

theorem width_phase_ok_length (src : List Char) (sp : Specifier) (rest : List Specifier)
    (out src2 : List Char) (sp2 : Specifier) (rest2 : List Specifier) :
    width_phase src sp rest = Phase.ok out src2 sp2 rest2 → src2.length ≤ src.length := by
  intro h
  match src with
  | [] => simp [width_phase] at h
  | c :: src' =>
    simp only [width_phase] at h
    split at h
    · match src', h with
      | [], h => simp at h
      | d :: src'', h =>
        simp only at h
        split at h
        · match rest, h with
          | [], h => simp at h
          | sp' :: rest', h =>
            simp only [Phase.ok.injEq] at h
            obtain ⟨-, h2, -, -⟩ := h
            simp [← h2]
        · simp at h
    · split at h
      · simp at h
      next rem heq =>
        simp only [Phase.ok.injEq] at h
        obtain ⟨-, h2, -, -⟩ := h
        subst h2
        exact copyDigits_some_length _ _ heq

theorem precision_phase_ok_length (src : List Char) (sp : Specifier) (rest : List Specifier)
    (out src2 : List Char) (sp2 : Specifier) (rest2 : List Specifier) :
    precision_phase src sp rest = Phase.ok out src2 sp2 rest2 → src2.length ≤ src.length := by
  intro h
  match src with
  | [] => simp [precision_phase] at h
  | c :: src' =>
    simp only [precision_phase] at h
    split at h
    · split at h
      · simp at h
      · match src', h with
        | [], h => simp at h
        | d :: src'', h =>
          simp only at h
          split at h
          · match src'', h with
            | [], h => simp at h
            | e :: src3, h =>
              simp only at h
              split at h
              · match rest, h with
                | [], h => simp at h
                | sp' :: rest', h =>
                  simp only at h
                  split at h
                  · simp at h
                  · simp only [Phase.ok.injEq] at h
                    obtain ⟨-, h2, -, -⟩ := h
                    subst h2
                    simp only [List.length_cons]
                    omega
              · simp at h
          · split at h
            · simp at h
            next rem heq =>
              simp only [Phase.ok.injEq] at h
              obtain ⟨-, h2, -, -⟩ := h
              subst h2
              have := copyDigits_some_length (d :: src'') rem heq
              exact le_trans this (by simp)
    · simp only [Phase.ok.injEq] at h
      obtain ⟨-, h2, -, -⟩ := h
      simp [← h2]

mutual

/-- `transformer::find_specifier`: copies text verbatim until a `%`
directive is found, handling `%%` escapes, and checks descriptor exhaustion
at end of input. -/
def find_specifier (src : List Char) (specs : List Specifier) : Status × List Char :=
  match src with
  | [] =>
    match specs with
    | [] => (Status.correct, [])
    | _ :: _ => (Status.format_too_many_args, [])
  | c :: src' =>
    if c = '%' then
      match src' with
      | [] => (Status.format_spurious_percent, ['%'])
      | d :: src'' =>
        if d = '%' then
          let r := find_specifier src'' specs
          (r.1, '%' :: '%' :: r.2)
        else
          let r := transform_specifier (d :: src'') specs
          (r.1, '%' :: r.2)
    else
      let r := find_specifier src' specs
      (r.1, c :: r.2)
termination_by 3 * src.length + 2
decreasing_by
  · simp only [List.length_cons]; omega
  · simp only [List.length_cons]; omega
  · simp only [List.length_cons]; omega

/-- `transformer::transform_specifier`: parses one directive body (flags,
width, precision, length/type) against the current descriptor. -/
def transform_specifier (src : List Char) (specs : List Specifier) : Status × List Char :=
  match specs with
  | [] => (Status.format_not_enough_args, [])
  | sp :: rest =>
    match hw : width_phase (copyFlags src).2 sp rest with
    | Phase.err st out => (st, (copyFlags src).1 ++ out)
    | Phase.ok wout src2 sp2 rest2 =>
      match hp : precision_phase src2 sp2 rest2 with
      | Phase.err st out => (st, (copyFlags src).1 ++ wout ++ out)
      | Phase.ok pout src3 sp3 rest3 =>
        ((type_phase 4 src3 sp3 rest3).1,
         (copyFlags src).1 ++ wout ++ pout ++ (type_phase 4 src3 sp3 rest3).2)
termination_by 3 * src.length + 1
decreasing_by
  all_goals
    have h1 : (copyFlags src).2.length ≤ src.length := copyFlags_snd_length src
    have h2 := width_phase_ok_length (copyFlags src).2 sp rest wout src2 sp2 rest2 hw
    have h3 := precision_phase_ok_length src2 sp2 rest2 pout src3 sp3 rest3 hp
    omega

/-- The final loop of `transform_specifier`: scan at most 4 characters for
the deduction character `?` or an explicit conversion letter, validate it
against the current descriptor, emit the rewritten length/type text, and
hand the rest of the template back to `find_specifier`. -/
def type_phase (fuel : Nat) (src : List Char) (sp : Specifier) (rest : List Specifier) :
    Status × List Char :=
  match fuel with
  | 0 => (Status.conversion_lacks_type, [])
  | fuel' + 1 =>
    match src with
    | [] => (Status.conversion_lacks_type, [])
    | ch :: src' =>
      if ch = '?' then
        let r := find_specifier src' rest
        (r.1, sp.spec ++ r.2)
      else if specifier_class ch ≠ Category.invalid then
        if ch = 'c' then
          if sp.promotes_to_int then
            let r := find_specifier src' rest
            (r.1, ch :: r.2)
          else (Status.format_expects_char, [])
        else if ch = 'n' then
          if sp.record_position then
            let r := find_specifier src' rest
            (r.1, ch :: r.2)
          else (Status.format_expects_int_ptr, [])
        else if ch = 'p' then
          if sp.prints_as_pointer then
            let r := find_specifier src' rest
            (r.1, ch :: r.2)
          else (Status.format_expects_ptr, [])
        else
          if specifier_class ch = specifier_class (last_char sp.spec) then
            let r := find_specifier src' rest
            (r.1, sp.spec.dropLast ++ ch :: r.2)
          else (Status.format_invalid_type, sp.spec.dropLast)
      else
        type_phase fuel' src' sp rest
termination_by 3 * src.length
decreasing_by
  · simp only [List.length_cons]; omega
  · simp only [List.length_cons]; omega
  · simp only [List.length_cons]; omega
  · simp only [List.length_cons]; omega
  · simp only [List.length_cons]; omega
  · simp only [List.length_cons]; omega

end

/-- Descriptor of `int` (`XM( int, d, promotes_to_int )`). -/
def int_descriptor : Specifier := ⟨['d'], true, false, false, false⟩

/-- Descriptor of `signed char` (`XM( signed char, hhd, promotes_to_int )`). -/
def signed_char_descriptor : Specifier := ⟨['h', 'h', 'd'], true, false, false, false⟩

/-- Descriptor of `long long` (`XM( long long, lld, 0u )`). -/
def long_long_descriptor : Specifier := ⟨['l', 'l', 'd'], false, false, false, false⟩

/-- Descriptor of `unsigned long` (`XM( unsigned long, lu, 0u )`). -/
def unsigned_long_descriptor : Specifier := ⟨['l', 'u'], false, false, false, false⟩

/-- Descriptor of `double` (`XM( double, g, 0u )`). -/
def double_descriptor : Specifier := ⟨['g'], false, false, false, false⟩

/-- Descriptor of `char const*` (`XM( char const*, s, prints_as_pointer )`). -/
def char_ptr_descriptor : Specifier := ⟨['s'], false, true, false, false⟩

/-- Descriptor of `int*` (`XM( int*, p, prints_as_pointer | record_position )`). -/
def int_ptr_descriptor : Specifier := ⟨['p'], false, true, false, true⟩

/-- Descriptor of span-like char containers such as `std::string_view`
(the `traits` specialization with `spec = ".*s"` and
`flags = forbid_precision`). -/
def string_view_descriptor : Specifier := ⟨['.', '*', 's'], false, false, true, false⟩

end Printx
end Rostd

namespace Rostd.Printx

theorem width_phase_append (src : List Char) (sp : Specifier) (rest E : List Specifier)
    (out src2 : List Char) (sp2 : Specifier) (rest2 : List Specifier)
    (h : width_phase src sp rest = Phase.ok out src2 sp2 rest2) :
    width_phase src sp (rest ++ E) = Phase.ok out src2 sp2 (rest2 ++ E) := by
  match src with
  | [] => simp [width_phase] at h
  | c :: src' =>
    by_cases hc : c = '*'
    · subst hc
      match src' with
      | [] => simp [width_phase] at h
      | d :: src'' =>
        by_cases hpr : sp.promotes_to_int
        · match rest with
          | [] => simp [width_phase, hpr] at h
          | sp' :: rest' =>
            simp [width_phase, hpr] at h ⊢
            obtain ⟨h1, h2, h3, h4⟩ := h
            exact ⟨h1, h2, h3, by rw [← h4]⟩
        · simp [width_phase, hpr] at h
    · rcases hdrem : (copyDigits (c :: src')).2 with - | rem
      · simp [width_phase, hc, hdrem] at h
      · simp [width_phase, hc, hdrem] at h ⊢
        obtain ⟨h1, h2, h3, h4⟩ := h
        exact ⟨h1, h2, h3, by rw [← h4]⟩

theorem width_phase_truncated (src : List Char) (sp : Specifier) (r E : List Specifier)
    (out src2 : List Char) (sp2 : Specifier) (rest2E : List Specifier)
    (h : width_phase src sp (r ++ E) = Phase.ok out src2 sp2 rest2E) :
    width_phase src sp r = Phase.err Status.format_not_enough_args out ∨
      ∃ r2, width_phase src sp r = Phase.ok out src2 sp2 r2 ∧ rest2E = r2 ++ E := by
  match src with
  | [] => simp [width_phase] at h
  | c :: src' =>
    by_cases hc : c = '*'
    · subst hc
      match src' with
      | [] => simp [width_phase] at h
      | d :: src'' =>
        by_cases hpr : sp.promotes_to_int
        · match r with
          | [] =>
            match E, h with
            | [], h => simp [width_phase, hpr] at h
            | spE :: restE, h =>
              simp [width_phase, hpr] at h
              left
              simp [width_phase, hpr, ← h.1]
          | sp' :: rest' =>
            simp [width_phase, hpr] at h
            right
            refine ⟨rest', ?_, ?_⟩
            · simp [width_phase, hpr, h.1, h.2.1, h.2.2.1]
            · rw [← h.2.2.2]
        · simp [width_phase, hpr] at h
    · rcases hdrem : (copyDigits (c :: src')).2 with - | rem
      · simp [width_phase, hc, hdrem] at h
      · simp [width_phase, hc, hdrem] at h ⊢
        obtain ⟨h1, h2, h3, h4⟩ := h
        exact ⟨r, ⟨h1, h2, h3, rfl⟩, h4.symm⟩

theorem precision_phase_append (src : List Char) (sp : Specifier) (rest E : List Specifier)
    (out src2 : List Char) (sp2 : Specifier) (rest2 : List Specifier)
    (h : precision_phase src sp rest = Phase.ok out src2 sp2 rest2) :
    precision_phase src sp (rest ++ E) = Phase.ok out src2 sp2 (rest2 ++ E) := by
  match src with
  | [] => simp [precision_phase] at h
  | c :: src' =>
    by_cases hc : c = '.'
    · subst hc
      by_cases hfp : sp.forbid_precision
      · simp [precision_phase, hfp] at h
      · match src' with
        | [] => simp [precision_phase, hfp] at h
        | d :: src'' =>
          by_cases hd : d = '*'
          · subst hd
            match src'' with
            | [] => simp [precision_phase, hfp] at h
            | e :: src3 =>
              by_cases hpr : sp.promotes_to_int
              · match rest with
                | [] => simp [precision_phase, hfp, hpr] at h
                | sp' :: rest' =>
                  by_cases hfp2 : sp'.forbid_precision
                  · simp [precision_phase, hfp, hpr, hfp2] at h
                  · simp [precision_phase, hfp, hpr, hfp2] at h ⊢
                    obtain ⟨h1, h2, h3, h4⟩ := h
                    exact ⟨h1, h2, h3, by rw [← h4]⟩
              · simp [precision_phase, hfp, hpr] at h
          · rcases hdrem : (copyDigits (d :: src'')).2 with - | rem
            · simp [precision_phase, hfp, hd, hdrem] at h
            · simp [precision_phase, hfp, hd, hdrem] at h ⊢
              obtain ⟨h1, h2, h3, h4⟩ := h
              exact ⟨h1, h2, h3, by rw [← h4]⟩
    · simp [precision_phase, hc] at h ⊢
      obtain ⟨h1, h2, h3, h4⟩ := h
      exact ⟨h1, h2, h3, by rw [← h4]⟩

theorem precision_phase_truncated (src : List Char) (sp : Specifier) (r E : List Specifier)
    (out src2 : List Char) (sp2 : Specifier) (rest2E : List Specifier)
    (h : precision_phase src sp (r ++ E) = Phase.ok out src2 sp2 rest2E) :
    precision_phase src sp r = Phase.err Status.format_not_enough_args out ∨
      ∃ r2, precision_phase src sp r = Phase.ok out src2 sp2 r2 ∧ rest2E = r2 ++ E := by
  match src with
  | [] => simp [precision_phase] at h
  | c :: src' =>
    by_cases hc : c = '.'
    · subst hc
      by_cases hfp : sp.forbid_precision
      · simp [precision_phase, hfp] at h
      · match src' with
        | [] => simp [precision_phase, hfp] at h
        | d :: src'' =>
          by_cases hd : d = '*'
          · subst hd
            match src'' with
            | [] => simp [precision_phase, hfp] at h
            | e :: src3 =>
              by_cases hpr : sp.promotes_to_int
              · match r with
                | [] =>
                  match E, h with
                  | [], h => simp [precision_phase, hfp, hpr] at h
                  | spE :: restE, h =>
                    by_cases hfpE : spE.forbid_precision
                    · simp [precision_phase, hfp, hpr, hfpE] at h
                    · simp [precision_phase, hfp, hpr, hfpE] at h
                      left
                      simp [precision_phase, hfp, hpr, ← h.1]
                | sp' :: rest' =>
                  by_cases hfp2 : sp'.forbid_precision
                  · simp [precision_phase, hfp, hpr, hfp2] at h
                  · simp [precision_phase, hfp, hpr, hfp2] at h ⊢
                    obtain ⟨h1, h2, h3, h4⟩ := h
                    exact ⟨rest', ⟨h1, h2, h3, rfl⟩, h4.symm⟩
              · simp [precision_phase, hfp, hpr] at h
          · rcases hdrem : (copyDigits (d :: src'')).2 with - | rem
            · simp [precision_phase, hfp, hd, hdrem] at h
            · simp [precision_phase, hfp, hd, hdrem] at h ⊢
              obtain ⟨h1, h2, h3, h4⟩ := h
              exact ⟨r, ⟨h1, h2, h3, rfl⟩, h4.symm⟩
    · simp [precision_phase, hc] at h ⊢
      obtain ⟨h1, h2, h3, h4⟩ := h
      exact ⟨r, ⟨h1, h2, h3, rfl⟩, h4.symm⟩

end Rostd.Printx

namespace Rostd.Printx

theorem transform_width_err (src : List Char) (sp : Specifier) (rest : List Specifier)
    (st : Status) (wout : List Char)
    (hw : width_phase (copyFlags src).2 sp rest = Phase.err st wout) :
    transform_specifier src (sp :: rest) = (st, (copyFlags src).1 ++ wout) := by
  rw [transform_specifier.eq_def]
  split
  next heq => simp at heq
  next heq =>
    injection heq with g1 g2
    subst g1; subst g2
    split
    next heq2 => rw [hw] at heq2; injection heq2 with e1 e2; rw [e1, e2]
    next heq2 => rw [hw] at heq2; exact Phase.noConfusion heq2

theorem transform_precision_err (src : List Char) (sp : Specifier) (rest : List Specifier)
    (wout src2 : List Char) (sp2 : Specifier) (rest2 : List Specifier)
    (st : Status) (pout : List Char)
    (hw : width_phase (copyFlags src).2 sp rest = Phase.ok wout src2 sp2 rest2)
    (hp : precision_phase src2 sp2 rest2 = Phase.err st pout) :
    transform_specifier src (sp :: rest) = (st, (copyFlags src).1 ++ wout ++ pout) := by
  rw [transform_specifier.eq_def]
  split
  next heq => simp at heq
  next heq =>
    injection heq with g1 g2
    subst g1; subst g2
    split
    next heq2 => rw [hw] at heq2; exact Phase.noConfusion heq2
    next heq2 =>
      rw [hw] at heq2
      injection heq2 with e1 e2 e3 e4
      subst e1; subst e2; subst e3; subst e4
      split
      next heq3 => rw [hp] at heq3; injection heq3 with f1 f2; rw [f1, f2]
      next heq3 => rw [hp] at heq3; exact Phase.noConfusion heq3

theorem transform_phases_ok (src : List Char) (sp : Specifier) (rest : List Specifier)
    (wout src2 : List Char) (sp2 : Specifier) (rest2 : List Specifier)
    (pout src3 : List Char) (sp3 : Specifier) (rest3 : List Specifier)
    (hw : width_phase (copyFlags src).2 sp rest = Phase.ok wout src2 sp2 rest2)
    (hp : precision_phase src2 sp2 rest2 = Phase.ok pout src3 sp3 rest3) :
    transform_specifier src (sp :: rest) =
      ((type_phase 4 src3 sp3 rest3).1,
       (copyFlags src).1 ++ wout ++ pout ++ (type_phase 4 src3 sp3 rest3).2) := by
  rw [transform_specifier.eq_def]
  split
  next heq => simp at heq
  next heq =>
    injection heq with g1 g2
    subst g1; subst g2
    split
    next heq2 => rw [hw] at heq2; exact Phase.noConfusion heq2
    next heq2 =>
      rw [hw] at heq2
      injection heq2 with e1 e2 e3 e4
      subst e1; subst e2; subst e3; subst e4
      split
      next heq3 => rw [hp] at heq3; exact Phase.noConfusion heq3
      next heq3 =>
        rw [hp] at heq3
        injection heq3 with f1 f2 f3 f4
        subst f1; subst f2; subst f3; subst f4
        simp

theorem width_phase_err_ne_correct (src : List Char) (sp : Specifier) (rest : List Specifier)
    (st : Status) (out : List Char)
    (hw : width_phase src sp rest = Phase.err st out) : st ≠ Status.correct := by
  match src with
  | [] => simp [width_phase] at hw; simp [← hw.1]
  | c :: src' =>
    by_cases hc : c = '*'
    · subst hc
      match src' with
      | [] => simp [width_phase] at hw; simp [← hw.1]
      | d :: src'' =>
        by_cases hpr : sp.promotes_to_int
        · match rest with
          | [] => simp [width_phase, hpr] at hw; simp [← hw.1]
          | sp' :: rest' => simp [width_phase, hpr] at hw
        · simp [width_phase, hpr] at hw; simp [← hw.1]
    · rcases hdrem : (copyDigits (c :: src')).2 with - | rem
      · simp [width_phase, hc, hdrem] at hw; simp [← hw.1]
      · simp [width_phase, hc, hdrem] at hw

theorem precision_phase_err_ne_correct (src : List Char) (sp : Specifier) (rest : List Specifier)
    (st : Status) (out : List Char)
    (hp : precision_phase src sp rest = Phase.err st out) : st ≠ Status.correct := by
  match src with
  | [] => simp [precision_phase] at hp; simp [← hp.1]
  | c :: src' =>
    by_cases hc : c = '.'
    · subst hc
      by_cases hfp : sp.forbid_precision
      · simp [precision_phase, hfp] at hp; simp [← hp.1]
      · match src' with
        | [] => simp [precision_phase, hfp] at hp; simp [← hp.1]
        | d :: src'' =>
          by_cases hd : d = '*'
          · subst hd
            match src'' with
            | [] => simp [precision_phase, hfp] at hp; simp [← hp.1]
            | e :: src3 =>
              by_cases hpr : sp.promotes_to_int
              · match rest with
                | [] => simp [precision_phase, hfp, hpr] at hp; simp [← hp.1]
                | sp' :: rest' =>
                  by_cases hfp2 : sp'.forbid_precision
                  · simp [precision_phase, hfp, hpr, hfp2] at hp; simp [← hp.1]
                  · simp [precision_phase, hfp, hpr, hfp2] at hp
              · simp [precision_phase, hfp, hpr] at hp; simp [← hp.1]
          · rcases hdrem : (copyDigits (d :: src'')).2 with - | rem
            · simp [precision_phase, hfp, hd, hdrem] at hp; simp [← hp.1]
            · simp [precision_phase, hfp, hd, hdrem] at hp
    · simp [precision_phase, hc] at hp

end Rostd.Printx

namespace Rostd.Printx

theorem append_all : ∀ n : Nat,
    (∀ (src : List Char) (specs E : List Specifier) (out : List Char), src.length ≤ n →
      find_specifier src specs = (Status.correct, out) → E ≠ [] →
      find_specifier src (specs ++ E) = (Status.format_too_many_args, out)) ∧
    (∀ (src : List Char) (specs E : List Specifier) (out : List Char), src.length ≤ n →
      transform_specifier src specs = (Status.correct, out) → E ≠ [] →
      transform_specifier src (specs ++ E) = (Status.format_too_many_args, out)) ∧
    (∀ (fuel : Nat) (src : List Char) (sp : Specifier) (rest E : List Specifier)
        (out : List Char), src.length ≤ n →
      type_phase fuel src sp rest = (Status.correct, out) → E ≠ [] →
      type_phase fuel src sp (rest ++ E) = (Status.format_too_many_args, out)) := by
  intro n
  induction n with
  | zero =>
    refine ⟨?_, ?_, ?_⟩
    · intro src specs E out hlen h hE
      have hsrc : src = [] := List.length_eq_zero.mp (Nat.le_zero.mp hlen)
      subst hsrc
      match specs with
      | [] =>
        simp [find_specifier] at h
        subst h
        match E, hE with
        | e :: E', _ => simp [find_specifier]
      | s :: ss => simp [find_specifier] at h
    · intro src specs E out hlen h hE
      have hsrc : src = [] := List.length_eq_zero.mp (Nat.le_zero.mp hlen)
      subst hsrc
      match specs with
      | [] => simp [transform_specifier] at h
      | sp :: rest => simp [transform_specifier, copyFlags, width_phase] at h
    · intro fuel src sp rest E out hlen h hE
      have hsrc : src = [] := List.length_eq_zero.mp (Nat.le_zero.mp hlen)
      subst hsrc
      match fuel with
      | 0 => simp [type_phase] at h
      | fuel' + 1 => simp [type_phase] at h
  | succ n ih =>
    obtain ⟨ihf, ihtr, ihty⟩ := ih
    have hty : ∀ (fuel : Nat) (src : List Char) (sp : Specifier) (rest E : List Specifier)
        (out : List Char), src.length ≤ n + 1 →
        type_phase fuel src sp rest = (Status.correct, out) → E ≠ [] →
        type_phase fuel src sp (rest ++ E) = (Status.format_too_many_args, out) := by
      intro fuel src sp rest E out hlen h hE
      match fuel with
      | 0 => simp [type_phase] at h
      | fuel' + 1 =>
        match src with
        | [] => simp [type_phase] at h
        | ch :: src' =>
          have hlen' : src'.length ≤ n := by
            simp only [List.length_cons] at hlen; omega
          by_cases hq : ch = '?'
          · subst hq
            have hstep : ∀ r : List Specifier, type_phase (fuel' + 1) ('?' :: src') sp r =
                ((find_specifier src' r).1, sp.spec ++ (find_specifier src' r).2) := by
              intro r; simp [type_phase]
            rw [hstep, Prod.mk.injEq] at h
            obtain ⟨h1, h2⟩ := h
            have hfeq : find_specifier src' rest = (Status.correct, (find_specifier src' rest).2) := by
              rw [← h1]
            have hres := ihf src' rest E (find_specifier src' rest).2 hlen' hfeq hE
            rw [hstep, hres]
            simp [h2]
          · by_cases hv : specifier_class ch = Category.invalid
            · have hstep : ∀ r : List Specifier, type_phase (fuel' + 1) (ch :: src') sp r =
                  type_phase fuel' src' sp r := by
                intro r
                rw [type_phase.eq_def]
                simp [hq, hv]
              rw [hstep] at h
              rw [hstep]
              exact ihty fuel' src' sp rest E out hlen' h hE
            · by_cases hcch : ch = 'c'
              · subst hcch
                by_cases hcap : sp.promotes_to_int
                · have hstep : ∀ r : List Specifier, type_phase (fuel' + 1) ('c' :: src') sp r =
                      ((find_specifier src' r).1, 'c' :: (find_specifier src' r).2) := by
                    intro r; simp [type_phase, hq, hv, hcap]
                  rw [hstep, Prod.mk.injEq] at h
                  obtain ⟨h1, h2⟩ := h
                  have hfeq : find_specifier src' rest =
                      (Status.correct, (find_specifier src' rest).2) := by rw [← h1]
                  have hres := ihf src' rest E (find_specifier src' rest).2 hlen' hfeq hE
                  rw [hstep, hres]
                  simp [h2]
                · simp [type_phase, hq, hv, hcap] at h
              · by_cases hnch : ch = 'n'
                · subst hnch
                  by_cases hcap : sp.record_position
                  · have hstep : ∀ r : List Specifier, type_phase (fuel' + 1) ('n' :: src') sp r =
                        ((find_specifier src' r).1, 'n' :: (find_specifier src' r).2) := by
                      intro r; simp [type_phase, hq, hv, hcap]
                    rw [hstep, Prod.mk.injEq] at h
                    obtain ⟨h1, h2⟩ := h
                    have hfeq : find_specifier src' rest =
                        (Status.correct, (find_specifier src' rest).2) := by rw [← h1]
                    have hres := ihf src' rest E (find_specifier src' rest).2 hlen' hfeq hE
                    rw [hstep, hres]
                    simp [h2]
                  · simp [type_phase, hq, hv, hcap] at h
                · by_cases hpch : ch = 'p'
                  · subst hpch
                    by_cases hcap : sp.prints_as_pointer
                    · have hstep : ∀ r : List Specifier, type_phase (fuel' + 1) ('p' :: src') sp r =
                          ((find_specifier src' r).1, 'p' :: (find_specifier src' r).2) := by
                        intro r; simp [type_phase, hq, hv, hcap]
                      rw [hstep, Prod.mk.injEq] at h
                      obtain ⟨h1, h2⟩ := h
                      have hfeq : find_specifier src' rest =
                          (Status.correct, (find_specifier src' rest).2) := by rw [← h1]
                      have hres := ihf src' rest E (find_specifier src' rest).2 hlen' hfeq hE
                      rw [hstep, hres]
                      simp [h2]
                    · simp [type_phase, hq, hv, hcap] at h
                  · by_cases hcl : specifier_class ch = specifier_class (last_char sp.spec)
                    · have hv2 : ¬specifier_class (last_char sp.spec) = Category.invalid := by
                        rw [← hcl]; exact hv
                      have hstep : ∀ r : List Specifier, type_phase (fuel' + 1) (ch :: src') sp r =
                          ((find_specifier src' r).1,
                           sp.spec.dropLast ++ ch :: (find_specifier src' r).2) := by
                        intro r
                        rw [type_phase.eq_def]
                        simp [hq, hv, hv2, hcch, hnch, hpch, hcl]
                      rw [hstep, Prod.mk.injEq] at h
                      obtain ⟨h1, h2⟩ := h
                      have hfeq : find_specifier src' rest =
                          (Status.correct, (find_specifier src' rest).2) := by rw [← h1]
                      have hres := ihf src' rest E (find_specifier src' rest).2 hlen' hfeq hE
                      rw [hstep, hres]
                      simp [h2]
                    · simp [type_phase, hq, hv, hcch, hnch, hpch, hcl] at h
    have htr : ∀ (src : List Char) (specs E : List Specifier) (out : List Char),
        src.length ≤ n + 1 →
        transform_specifier src specs = (Status.correct, out) → E ≠ [] →
        transform_specifier src (specs ++ E) = (Status.format_too_many_args, out) := by
      intro src specs E out hlen h hE
      match specs with
      | [] => simp [transform_specifier] at h
      | sp :: rest =>
        rcases hw : width_phase (copyFlags src).2 sp rest with ⟨st, wout⟩ | ⟨wout, src2, sp2, rest2⟩
        · rw [transform_width_err src sp rest st wout hw, Prod.mk.injEq] at h
          exact absurd h.1 (width_phase_err_ne_correct (copyFlags src).2 sp rest st wout hw)
        · rcases hp : precision_phase src2 sp2 rest2 with ⟨st, pout⟩ | ⟨pout, src3, sp3, rest3⟩
          · rw [transform_precision_err src sp rest wout src2 sp2 rest2 st pout hw hp,
                Prod.mk.injEq] at h
            exact absurd h.1 (precision_phase_err_ne_correct src2 sp2 rest2 st pout hp)
          · rw [transform_phases_ok src sp rest wout src2 sp2 rest2 pout src3 sp3 rest3 hw hp,
                Prod.mk.injEq] at h
            obtain ⟨h1, h2⟩ := h
            have hlen3 : src3.length ≤ n + 1 := by
              have l1 : (copyFlags src).2.length ≤ src.length := copyFlags_snd_length src
              have l2 := width_phase_ok_length (copyFlags src).2 sp rest wout src2 sp2 rest2 hw
              have l3 := precision_phase_ok_length src2 sp2 rest2 pout src3 sp3 rest3 hp
              omega
            have htyeq : type_phase 4 src3 sp3 rest3 =
                (Status.correct, (type_phase 4 src3 sp3 rest3).2) := by rw [← h1]
            have hres := hty 4 src3 sp3 rest3 E (type_phase 4 src3 sp3 rest3).2 hlen3 htyeq hE
            have hw' := width_phase_append (copyFlags src).2 sp rest E wout src2 sp2 rest2 hw
            have hp' := precision_phase_append src2 sp2 rest2 E pout src3 sp3 rest3 hp
            have hstepE := transform_phases_ok src sp (rest ++ E) wout src2 sp2 (rest2 ++ E)
              pout src3 sp3 (rest3 ++ E) hw' hp'
            rw [List.cons_append, hstepE, hres]
            simpa using h2
    refine ⟨?_, htr, hty⟩
    intro src specs E out hlen h hE
    match src with
    | [] =>
      match specs with
      | [] =>
        simp [find_specifier] at h
        subst h
        match E, hE with
        | e :: E', _ => simp [find_specifier]
      | s :: ss => simp [find_specifier] at h
    | c :: src' =>
      have hlen' : src'.length ≤ n := by
        simp only [List.length_cons] at hlen; omega
      by_cases hc : c = '%'
      · subst hc
        match src' with
        | [] => simp [find_specifier] at h
        | d :: src'' =>
          by_cases hd : d = '%'
          · subst hd
            have hstep : ∀ s : List Specifier, find_specifier ('%' :: '%' :: src'') s =
                ((find_specifier src'' s).1, '%' :: '%' :: (find_specifier src'' s).2) := by
              intro s; rw [find_specifier.eq_def]; simp
            rw [hstep, Prod.mk.injEq] at h
            obtain ⟨h1, h2⟩ := h
            have hfeq : find_specifier src'' specs =
                (Status.correct, (find_specifier src'' specs).2) := by rw [← h1]
            have hlen'' : src''.length ≤ n := by
              simp only [List.length_cons] at hlen; omega
            have hres := ihf src'' specs E (find_specifier src'' specs).2 hlen'' hfeq hE
            rw [hstep, hres]
            simp [h2]
          · have hstep : ∀ s : List Specifier, find_specifier ('%' :: d :: src'') s =
                ((transform_specifier (d :: src'') s).1,
                 '%' :: (transform_specifier (d :: src'') s).2) := by
              intro s; rw [find_specifier.eq_def]; simp [hd]
            rw [hstep, Prod.mk.injEq] at h
            obtain ⟨h1, h2⟩ := h
            have hteq : transform_specifier (d :: src'') specs =
                (Status.correct, (transform_specifier (d :: src'') specs).2) := by rw [← h1]
            have hlen2 : (d :: src'').length ≤ n := by
              simp only [List.length_cons] at hlen ⊢; omega
            have hres := ihtr (d :: src'') specs E (transform_specifier (d :: src'') specs).2
              hlen2 hteq hE
            rw [hstep, hres]
            simp [h2]
      · have hstep : ∀ s : List Specifier, find_specifier (c :: src') s =
            ((find_specifier src' s).1, c :: (find_specifier src' s).2) := by
          intro s; rw [find_specifier.eq_def]; simp [hc]
        rw [hstep, Prod.mk.injEq] at h
        obtain ⟨h1, h2⟩ := h
        have hfeq : find_specifier src' specs =
            (Status.correct, (find_specifier src' specs).2) := by rw [← h1]
        have hres := ihf src' specs E (find_specifier src' specs).2 hlen' hfeq hE
        rw [hstep, hres]
        simp [h2]

end Rostd.Printx

namespace Rostd.Printx

theorem prefix_all : ∀ n : Nat,
    (∀ (src : List Char) (S E : List Specifier) (out : List Char), src.length ≤ n → E ≠ [] →
      find_specifier src (S ++ E) = (Status.correct, out) →
      (find_specifier src S).1 = Status.format_not_enough_args) ∧
    (∀ (src : List Char) (S E : List Specifier) (out : List Char), src.length ≤ n → E ≠ [] →
      transform_specifier src (S ++ E) = (Status.correct, out) →
      (transform_specifier src S).1 = Status.format_not_enough_args) ∧
    (∀ (fuel : Nat) (src : List Char) (sp : Specifier) (r E : List Specifier)
        (out : List Char), src.length ≤ n → E ≠ [] →
      type_phase fuel src sp (r ++ E) = (Status.correct, out) →
      (type_phase fuel src sp r).1 = Status.format_not_enough_args) := by
  intro n
  induction n with
  | zero =>
    refine ⟨?_, ?_, ?_⟩
    · intro src S E out hlen hE h
      have hsrc : src = [] := List.length_eq_zero.mp (Nat.le_zero.mp hlen)
      subst hsrc
      cases hSE : S ++ E with
      | nil => exact absurd (List.append_eq_nil.mp hSE).2 hE
      | cons s ss => rw [hSE] at h; simp [find_specifier] at h
    · intro src S E out hlen hE h
      have hsrc : src = [] := List.length_eq_zero.mp (Nat.le_zero.mp hlen)
      subst hsrc
      cases hSE : S ++ E with
      | nil => exact absurd (List.append_eq_nil.mp hSE).2 hE
      | cons s ss =>
        rw [hSE] at h
        simp [transform_specifier, copyFlags, width_phase] at h
    · intro fuel src sp r E out hlen hE h
      have hsrc : src = [] := List.length_eq_zero.mp (Nat.le_zero.mp hlen)
      subst hsrc
      match fuel with
      | 0 => simp [type_phase] at h
      | fuel' + 1 => simp [type_phase] at h
  | succ n ih =>
    obtain ⟨ihf, ihtr, ihty⟩ := ih
    have hty : ∀ (fuel : Nat) (src : List Char) (sp : Specifier) (r E : List Specifier)
        (out : List Char), src.length ≤ n + 1 → E ≠ [] →
        type_phase fuel src sp (r ++ E) = (Status.correct, out) →
        (type_phase fuel src sp r).1 = Status.format_not_enough_args := by
      intro fuel src sp r E out hlen hE h
      match fuel with
      | 0 => simp [type_phase] at h
      | fuel' + 1 =>
        match src with
        | [] => simp [type_phase] at h
        | ch :: src' =>
          have hlen' : src'.length ≤ n := by
            simp only [List.length_cons] at hlen; omega
          by_cases hq : ch = '?'
          · subst hq
            have hstep : ∀ s : List Specifier, type_phase (fuel' + 1) ('?' :: src') sp s =
                ((find_specifier src' s).1, sp.spec ++ (find_specifier src' s).2) := by
              intro s; simp [type_phase]
            rw [hstep, Prod.mk.injEq] at h
            have hfeq : find_specifier src' (r ++ E) =
                (Status.correct, (find_specifier src' (r ++ E)).2) := by rw [← h.1]
            have hres := ihf src' r E (find_specifier src' (r ++ E)).2 hlen' hE hfeq
            rw [hstep]
            exact hres
          · by_cases hv : specifier_class ch = Category.invalid
            · have hstep : ∀ s : List Specifier, type_phase (fuel' + 1) (ch :: src') sp s =
                  type_phase fuel' src' sp s := by
                intro s
                rw [type_phase.eq_def]
                simp [hq, hv]
              rw [hstep] at h
              rw [hstep]
              exact ihty fuel' src' sp r E out hlen' hE h
            · by_cases hcch : ch = 'c'
              · subst hcch
                by_cases hcap : sp.promotes_to_int
                · have hstep : ∀ s : List Specifier, type_phase (fuel' + 1) ('c' :: src') sp s =
                      ((find_specifier src' s).1, 'c' :: (find_specifier src' s).2) := by
                    intro s; simp [type_phase, hq, hv, hcap]
                  rw [hstep, Prod.mk.injEq] at h
                  have hfeq : find_specifier src' (r ++ E) =
                      (Status.correct, (find_specifier src' (r ++ E)).2) := by rw [← h.1]
                  have hres := ihf src' r E (find_specifier src' (r ++ E)).2 hlen' hE hfeq
                  rw [hstep]
                  exact hres
                · simp [type_phase, hq, hv, hcap] at h
              · by_cases hnch : ch = 'n'
                · subst hnch
                  by_cases hcap : sp.record_position
                  · have hstep : ∀ s : List Specifier, type_phase (fuel' + 1) ('n' :: src') sp s =
                        ((find_specifier src' s).1, 'n' :: (find_specifier src' s).2) := by
                      intro s; simp [type_phase, hq, hv, hcap]
                    rw [hstep, Prod.mk.injEq] at h
                    have hfeq : find_specifier src' (r ++ E) =
                        (Status.correct, (find_specifier src' (r ++ E)).2) := by rw [← h.1]
                    have hres := ihf src' r E (find_specifier src' (r ++ E)).2 hlen' hE hfeq
                    rw [hstep]
                    exact hres
                  · simp [type_phase, hq, hv, hcap] at h
                · by_cases hpch : ch = 'p'
                  · subst hpch
                    by_cases hcap : sp.prints_as_pointer
                    · have hstep : ∀ s : List Specifier, type_phase (fuel' + 1) ('p' :: src') sp s =
                          ((find_specifier src' s).1, 'p' :: (find_specifier src' s).2) := by
                        intro s; simp [type_phase, hq, hv, hcap]
                      rw [hstep, Prod.mk.injEq] at h
                      have hfeq : find_specifier src' (r ++ E) =
                          (Status.correct, (find_specifier src' (r ++ E)).2) := by rw [← h.1]
                      have hres := ihf src' r E (find_specifier src' (r ++ E)).2 hlen' hE hfeq
                      rw [hstep]
                      exact hres
                    · simp [type_phase, hq, hv, hcap] at h
                  · by_cases hcl : specifier_class ch = specifier_class (last_char sp.spec)
                    · have hv2 : ¬specifier_class (last_char sp.spec) = Category.invalid := by
                        rw [← hcl]; exact hv
                      have hstep : ∀ s : List Specifier, type_phase (fuel' + 1) (ch :: src') sp s =
                          ((find_specifier src' s).1,
                           sp.spec.dropLast ++ ch :: (find_specifier src' s).2) := by
                        intro s
                        rw [type_phase.eq_def]
                        simp [hq, hv, hv2, hcch, hnch, hpch, hcl]
                      rw [hstep, Prod.mk.injEq] at h
                      have hfeq : find_specifier src' (r ++ E) =
                          (Status.correct, (find_specifier src' (r ++ E)).2) := by rw [← h.1]
                      have hres := ihf src' r E (find_specifier src' (r ++ E)).2 hlen' hE hfeq
                      rw [hstep]
                      exact hres
                    · simp [type_phase, hq, hv, hcch, hnch, hpch, hcl] at h
    have htr : ∀ (src : List Char) (S E : List Specifier) (out : List Char),
        src.length ≤ n + 1 → E ≠ [] →
        transform_specifier src (S ++ E) = (Status.correct, out) →
        (transform_specifier src S).1 = Status.format_not_enough_args := by
      intro src S E out hlen hE h
      match S with
      | [] => simp [transform_specifier]
      | sp :: r' =>
        rw [List.cons_append] at h
        rcases hw : width_phase (copyFlags src).2 sp (r' ++ E) with ⟨st, wout⟩ |
          ⟨wout, src2, sp2, rest2E⟩
        · rw [transform_width_err src sp (r' ++ E) st wout hw, Prod.mk.injEq] at h
          exact absurd h.1 (width_phase_err_ne_correct (copyFlags src).2 sp (r' ++ E) st wout hw)
        · rcases width_phase_truncated (copyFlags src).2 sp r' E wout src2 sp2 rest2E hw with
            hw2 | ⟨r2, hw2, hr2⟩
          · rw [transform_width_err src sp r' Status.format_not_enough_args wout hw2]
          · subst hr2
            rcases hp : precision_phase src2 sp2 (r2 ++ E) with ⟨st, pout⟩ |
              ⟨pout, src3, sp3, rest3E⟩
            · rw [transform_precision_err src sp (r' ++ E) wout src2 sp2 (r2 ++ E) st pout hw hp,
                  Prod.mk.injEq] at h
              exact absurd h.1 (precision_phase_err_ne_correct src2 sp2 (r2 ++ E) st pout hp)
            · rcases precision_phase_truncated src2 sp2 r2 E pout src3 sp3 rest3E hp with
                hp2 | ⟨r3, hp2, hr3⟩
              · rw [transform_precision_err src sp r' wout src2 sp2 r2
                    Status.format_not_enough_args pout hw2 hp2]
              · subst hr3
                rw [transform_phases_ok src sp (r' ++ E) wout src2 sp2 (r2 ++ E)
                    pout src3 sp3 (r3 ++ E) hw hp, Prod.mk.injEq] at h
                have hlen3 : src3.length ≤ n + 1 := by
                  have l1 : (copyFlags src).2.length ≤ src.length := copyFlags_snd_length src
                  have l2 := width_phase_ok_length (copyFlags src).2 sp (r' ++ E) wout src2 sp2
                    (r2 ++ E) hw
                  have l3 := precision_phase_ok_length src2 sp2 (r2 ++ E) pout src3 sp3
                    (r3 ++ E) hp
                  omega
                have htyeq : type_phase 4 src3 sp3 (r3 ++ E) =
                    (Status.correct, (type_phase 4 src3 sp3 (r3 ++ E)).2) := by rw [← h.1]
                have hres := hty 4 src3 sp3 r3 E (type_phase 4 src3 sp3 (r3 ++ E)).2 hlen3 hE htyeq
                rw [transform_phases_ok src sp r' wout src2 sp2 r2 pout src3 sp3 r3 hw2 hp2]
                exact hres
    refine ⟨?_, htr, hty⟩
    intro src S E out hlen hE h
    match src with
    | [] =>
      cases hSE : S ++ E with
      | nil => exact absurd (List.append_eq_nil.mp hSE).2 hE
      | cons s ss => rw [hSE] at h; simp [find_specifier] at h
    | c :: src' =>
      have hlen' : src'.length ≤ n := by
        simp only [List.length_cons] at hlen; omega
      by_cases hc : c = '%'
      · subst hc
        match src' with
        | [] => simp [find_specifier] at h
        | d :: src'' =>
          by_cases hd : d = '%'
          · subst hd
            have hstep : ∀ s : List Specifier, find_specifier ('%' :: '%' :: src'') s =
                ((find_specifier src'' s).1, '%' :: '%' :: (find_specifier src'' s).2) := by
              intro s; rw [find_specifier.eq_def]; simp
            rw [hstep, Prod.mk.injEq] at h
            have hfeq : find_specifier src'' (S ++ E) =
                (Status.correct, (find_specifier src'' (S ++ E)).2) := by rw [← h.1]
            have hlen'' : src''.length ≤ n := by
              simp only [List.length_cons] at hlen; omega
            have hres := ihf src'' S E (find_specifier src'' (S ++ E)).2 hlen'' hE hfeq
            rw [hstep]
            exact hres
          · have hstep : ∀ s : List Specifier, find_specifier ('%' :: d :: src'') s =
                ((transform_specifier (d :: src'') s).1,
                 '%' :: (transform_specifier (d :: src'') s).2) := by
              intro s; rw [find_specifier.eq_def]; simp [hd]
            rw [hstep, Prod.mk.injEq] at h
            have hteq : transform_specifier (d :: src'') (S ++ E) =
                (Status.correct, (transform_specifier (d :: src'') (S ++ E)).2) := by rw [← h.1]
            have hlen2 : (d :: src'').length ≤ n := by
              simp only [List.length_cons] at hlen ⊢; omega
            have hres := ihtr (d :: src'') S E (transform_specifier (d :: src'') (S ++ E)).2
              hlen2 hE hteq
            rw [hstep]
            exact hres
      · have hstep : ∀ s : List Specifier, find_specifier (c :: src') s =
            ((find_specifier src' s).1, c :: (find_specifier src' s).2) := by
          intro s; rw [find_specifier.eq_def]; simp [hc]
        rw [hstep, Prod.mk.injEq] at h
        have hfeq : find_specifier src' (S ++ E) =
            (Status.correct, (find_specifier src' (S ++ E)).2) := by rw [← h.1]
        have hres := ihf src' S E (find_specifier src' (S ++ E)).2 hlen' hE hfeq
        rw [hstep]
        exact hres

end Rostd.Printx

namespace Rostd.Printx

/-- Template predicate: the template contains no conversion directive (every
`%` is part of an escaped `%%` pair and there is no trailing lone `%`). -/
def no_directives : List Char → Bool
  | [] => true
  | c :: rest =>
    if c = '%' then
      match rest with
      | [] => false
      | d :: rest' => if d = '%' then no_directives rest' else false
    else no_directives rest

theorem no_directives_verbatim :
    ∀ (n : Nat) (t : List Char), t.length ≤ n → no_directives t = true →
      find_specifier t [] = (Status.correct, t) := by
  intro n
  induction n with
  | zero =>
    intro t ht hnd
    have : t = [] := by
      cases t with
      | nil => rfl
      | cons c rest => simp at ht
    subst this
    simp [find_specifier]
  | succ n ih =>
    intro t ht hnd
    cases t with
    | nil => simp [find_specifier]
    | cons c rest =>
      by_cases hc : c = '%'
      · subst hc
        cases rest with
        | nil => rw [no_directives.eq_def] at hnd; simp at hnd
        | cons d rest' =>
          by_cases hd : d = '%'
          · subst hd
            rw [no_directives.eq_def] at hnd
            simp at hnd
            have hlen : rest'.length ≤ n := by
              simp only [List.length_cons] at ht; omega
            have hr := ih rest' hlen hnd
            rw [find_specifier.eq_def]
            simp [hr]
          · exfalso
            rw [no_directives.eq_def] at hnd
            simp [hd] at hnd
      · rw [no_directives.eq_def] at hnd
        simp [hc] at hnd
        have hlen : rest.length ≤ n := by
          simp only [List.length_cons] at ht; omega
        have hr := ih rest hlen hnd
        rw [find_specifier.eq_def]
        simp [hc, hr]

end Rostd.Printx

namespace Rostd.Printx

theorem specifier_class_valid (ch : Char) (hv : specifier_class ch ≠ Category.invalid) :
    ch ∈ ['s', 'c', 'd', 'i', 'u', 'o', 'x', 'X', 'f', 'F', 'e', 'E', 'g', 'G', 'a', 'A', 'p', 'n'] := by
  unfold specifier_class at hv
  split at hv
  · next h => subst h; decide
  · split at hv
    · next h => rcases h with rfl | rfl | rfl | rfl | rfl | rfl | rfl <;> decide
    · split at hv
      · next h => rcases h with rfl | rfl | rfl | rfl | rfl | rfl | rfl | rfl <;> decide
      · split at hv
        · next h => rcases h with rfl | rfl <;> decide
        · exact absurd rfl hv

/-- C1: for every argument descriptor, a directive ending in the deduction
specifier `?` succeeds with no capability check, and `?` is replaced
verbatim by the descriptor's base spec, keeping the flags/width the caller
wrote: `"%?"` rewrites to `"%" ++ spec` and `"%03?"` to `"%03" ++ spec`
(with the 32-bit signed integer descriptor these are `"%d"` and `"%03d"`). -/
theorem claim_C1_deduction_replaces_base_spec (sp : Specifier) :
    find_specifier ['%', '?'] [sp] = (Status.correct, '%' :: sp.spec) ∧
    find_specifier ['%', '0', '3', '?'] [sp] = (Status.correct, '%' :: '0' :: '3' :: sp.spec) ∧
    find_specifier ['%', '?'] [int_descriptor] = (Status.correct, ['%', 'd']) ∧
    find_specifier ['%', '0', '3', '?'] [int_descriptor] = (Status.correct, ['%', '0', '3', 'd']) := by
  refine ⟨?_, ?_, ?_, ?_⟩ <;>
    simp [find_specifier, transform_specifier, type_phase, width_phase, precision_phase,
          copyFlags, copyDigits, is_flag, is_digit, specifier_class, last_char, int_descriptor]

/-- C2: a directive ending in an explicit conversion letter other than
`c`, `n`, `p` rewrites to the descriptor's length sub-specifiers (all of
its base spec except the final letter) followed by the caller's own letter
when the letter's type class matches the class of the descriptor's trailing
letter, and fails with `format_invalid_type` when the classes differ. -/
theorem claim_C2_explicit_letter_rewrite (ch : Char) (sp : Specifier)
    (hv : specifier_class ch ≠ Category.invalid)
    (hc : ch ≠ 'c') (hn : ch ≠ 'n') (hp : ch ≠ 'p') :
    find_specifier ['%', ch] [sp] =
      if specifier_class ch = specifier_class (last_char sp.spec)
      then (Status.correct, '%' :: (sp.spec.dropLast ++ [ch]))
      else (Status.format_invalid_type, '%' :: sp.spec.dropLast) := by
  have hmem := specifier_class_valid ch hv
  have eS : specifier_class 's' = Category.string := by decide
  have eD : specifier_class 'd' = Category.integer := by decide
  have eI : specifier_class 'i' = Category.integer := by decide
  have eU : specifier_class 'u' = Category.integer := by decide
  have eO : specifier_class 'o' = Category.integer := by decide
  have eX : specifier_class 'x' = Category.integer := by decide
  have eXX : specifier_class 'X' = Category.integer := by decide
  have eF : specifier_class 'f' = Category.floating_point := by decide
  have eFF : specifier_class 'F' = Category.floating_point := by decide
  have eE : specifier_class 'e' = Category.floating_point := by decide
  have eEE : specifier_class 'E' = Category.floating_point := by decide
  have eG : specifier_class 'g' = Category.floating_point := by decide
  have eGG : specifier_class 'G' = Category.floating_point := by decide
  have eA : specifier_class 'a' = Category.floating_point := by decide
  have eAA : specifier_class 'A' = Category.floating_point := by decide
  fin_cases hmem <;>
    first
    | exact absurd rfl hc
    | exact absurd rfl hn
    | exact absurd rfl hp
    | (simp [find_specifier, transform_specifier, type_phase, width_phase, precision_phase,
             copyFlags, copyDigits, is_flag, is_digit,
             eS, eD, eI, eU, eO, eX, eXX, eF, eFF, eE, eEE, eG, eGG, eA, eAA]
       split <;> simp)

theorem claim_C2_explicit_letter_rewrite_witness :
    specifier_class 'x' ≠ Category.invalid ∧
    find_specifier ['%', 'x'] [signed_char_descriptor] = (Status.correct, ['%', 'h', 'h', 'x']) := by
  refine ⟨by decide, ?_⟩
  have h := claim_C2_explicit_letter_rewrite 'x' signed_char_descriptor
    (by decide) (by decide) (by decide) (by decide)
  simpa [signed_char_descriptor, last_char, specifier_class] using h

end Rostd.Printx

namespace Rostd.Printx

/-- C3 counterexample: the claimed equivalence "the parse succeeds iff the
descriptor count equals directives plus `*` occurrences" is false.  The
template `"%c"` has one directive and no `*`, and is parsed with exactly one
descriptor (64-bit signed integer), yet the parse fails with
`format_expects_char`; the template `"%*s"` parsed with one descriptor
(fewer than directives plus stars) fails with `field_width_needs_int`, not
`format_not_enough_args`. -/
theorem claim_C3_counterexample :
    find_specifier ['%', 'c'] [long_long_descriptor] = (Status.format_expects_char, ['%']) ∧
    find_specifier ['%', '*', 's'] [char_ptr_descriptor] =
      (Status.field_width_needs_int, ['%', '*']) := by
  constructor <;>
    simp [find_specifier, transform_specifier, type_phase, width_phase, precision_phase,
          copyFlags, copyDigits, is_flag, is_digit, specifier_class, last_char,
          long_long_descriptor, char_ptr_descriptor]

/-- C3 amended: a successful parse pins down the descriptor count exactly
(one per directive plus one per consumed `*`): if a template parses
successfully with descriptor sequence `S`, then the same template with any
proper extension of `S` fails with `format_too_many_args` (end of input
with a non-sentinel descriptor still current), and with any proper prefix
of `S` it fails with `format_not_enough_args` (a directive or `*`
consumption reached with the sentinel current).  The unqualified "iff"
of the original claim fails because a directive may fail its own
grammar/capability checks even with matching counts. -/
theorem claim_C3_success_determines_descriptor_count
    (src : List Char) (S E : List Specifier) (out : List Char)
    (h : find_specifier src S = (Status.correct, out)) (hE : E ≠ []) :
    find_specifier src (S ++ E) = (Status.format_too_many_args, out) ∧
    (∀ S₁ S₂ : List Specifier, S = S₁ ++ S₂ → S₂ ≠ [] →
      (find_specifier src S₁).1 = Status.format_not_enough_args) := by
  constructor
  · exact (append_all src.length).1 src S E out le_rfl h hE
  · intro S₁ S₂ hS hS₂
    rw [hS] at h
    exact (prefix_all src.length).1 src S₁ S₂ out le_rfl hS₂ h

theorem claim_C3_success_determines_descriptor_count_witness :
    find_specifier ['%', 'd'] ([int_descriptor] ++ [char_ptr_descriptor]) =
      (Status.format_too_many_args, ['%', 'd']) ∧
    (find_specifier ['%', 'd'] []).1 = Status.format_not_enough_args := by
  have hbase : find_specifier ['%', 'd'] [int_descriptor] = (Status.correct, ['%', 'd']) := by
    simp [find_specifier, transform_specifier, type_phase, width_phase, precision_phase,
          copyFlags, copyDigits, is_flag, is_digit, specifier_class, last_char, int_descriptor]
  have h := claim_C3_success_determines_descriptor_count ['%', 'd'] [int_descriptor]
    [char_ptr_descriptor] ['%', 'd'] hbase (by simp)
  exact ⟨h.1, h.2 [] [int_descriptor] rfl (by simp)⟩

/-- C4 counterexample: the claim asserts that `"%.*?"` against
`[int_descriptor, T_descriptor]` always consumes two descriptors and
produces `"%.*" ++ T.spec`; with the span-like string-view descriptor
(which carries forbid-precision) it instead fails with
`field_precision_not_allowed`. -/
theorem claim_C4_counterexample :
    find_specifier ['%', '.', '*', '?'] [int_descriptor, string_view_descriptor] =
      (Status.field_precision_not_allowed, ['%', '.', '*']) := by
  simp [find_specifier, transform_specifier, type_phase, width_phase, precision_phase,
        copyFlags, copyDigits, is_flag, is_digit, specifier_class, last_char,
        int_descriptor, string_view_descriptor]

/-- C4 amended: `"%*?"` against `[int_descriptor, T]` always consumes both
descriptors and produces `"%*" ++ T.spec`; `"%.*?"` does the same, yielding
`"%.*" ++ T.spec`, provided `T` does not carry forbid-precision, and fails
with `field_precision_not_allowed` when it does.  Whenever the descriptor
current at a `*` lacks promote-to-`int`, the parse fails with
`field_width_needs_int` in the width position, and with
`field_precision_needs_int` in the precision position (reached only when
the current descriptor permits an explicit precision at all). -/
theorem claim_C4_star_consumption (d : Specifier) (rest : List Specifier) :
    find_specifier ['%', '*', '?'] [int_descriptor, d] =
      (Status.correct, '%' :: '*' :: d.spec) ∧
    (d.forbid_precision = false →
      find_specifier ['%', '.', '*', '?'] [int_descriptor, d] =
        (Status.correct, '%' :: '.' :: '*' :: d.spec)) ∧
    (d.forbid_precision = true →
      find_specifier ['%', '.', '*', '?'] [int_descriptor, d] =
        (Status.field_precision_not_allowed, ['%', '.', '*'])) ∧
    (d.promotes_to_int = false →
      (find_specifier ['%', '*', '?'] (d :: rest)).1 = Status.field_width_needs_int) ∧
    (d.promotes_to_int = false → d.forbid_precision = false →
      (find_specifier ['%', '.', '*', '?'] (d :: rest)).1 = Status.field_precision_needs_int) := by
  obtain ⟨dspec, dpi, dpp, dfp, drp⟩ := d
  refine ⟨?_, ?_, ?_, ?_, ?_⟩
  · simp [find_specifier, transform_specifier, type_phase, width_phase, precision_phase,
          copyFlags, copyDigits, is_flag, is_digit, int_descriptor]
  · intro hfp
    subst hfp
    simp [find_specifier, transform_specifier, type_phase, width_phase, precision_phase,
          copyFlags, copyDigits, is_flag, is_digit, int_descriptor]
  · intro hfp
    subst hfp
    simp [find_specifier, transform_specifier, type_phase, width_phase, precision_phase,
          copyFlags, copyDigits, is_flag, is_digit, int_descriptor]
  · intro hpr
    subst hpr
    simp [find_specifier, transform_specifier, type_phase, width_phase, precision_phase,
          copyFlags, copyDigits, is_flag, is_digit]
  · intro hpr hfp
    subst hpr
    subst hfp
    simp [find_specifier, transform_specifier, type_phase, width_phase, precision_phase,
          copyFlags, copyDigits, is_flag, is_digit]

theorem claim_C4_star_consumption_witness :
    (char_ptr_descriptor.forbid_precision = false ∧
     char_ptr_descriptor.promotes_to_int = false) ∧
    find_specifier ['%', '*', '?'] [int_descriptor, char_ptr_descriptor] =
      (Status.correct, '%' :: '*' :: char_ptr_descriptor.spec) ∧
    find_specifier ['%', '.', '*', '?'] [int_descriptor, char_ptr_descriptor] =
      (Status.correct, '%' :: '.' :: '*' :: char_ptr_descriptor.spec) ∧
    (find_specifier ['%', '*', '?'] [char_ptr_descriptor]).1 = Status.field_width_needs_int ∧
    (find_specifier ['%', '.', '*', '?'] [char_ptr_descriptor]).1 =
      Status.field_precision_needs_int ∧
    (string_view_descriptor.forbid_precision = true ∧
     find_specifier ['%', '.', '*', '?'] [int_descriptor, string_view_descriptor] =
       (Status.field_precision_not_allowed, ['%', '.', '*'])) := by
  have h1 := claim_C4_star_consumption char_ptr_descriptor []
  have h2 := claim_C4_star_consumption string_view_descriptor []
  exact ⟨⟨rfl, rfl⟩, h1.1, h1.2.1 rfl, h1.2.2.2.1 rfl, h1.2.2.2.2 rfl rfl, rfl, h2.2.2.1 rfl⟩

end Rostd.Printx

namespace Rostd.Printx

/-- C5: a directive whose precision phase begins with an explicit `.` while
the descriptor active at that point carries forbid-precision fails with
`field_precision_not_allowed`; in particular `"%10.2?"` against the
span-like string-view descriptor fails that way (emitting only `"%10"`, not
`"%10.2.*s"`). -/
theorem claim_C5_forbid_precision_rejects_dot :
    (∀ (src : List Char) (sp : Specifier) (rest : List Specifier),
      sp.forbid_precision = true →
      precision_phase ('.' :: src) sp rest = Phase.err Status.field_precision_not_allowed []) ∧
    find_specifier ['%', '1', '0', '.', '2', '?'] [string_view_descriptor] =
      (Status.field_precision_not_allowed, ['%', '1', '0']) := by
  constructor
  · intro src sp rest hfp
    simp [precision_phase, hfp]
  · simp [find_specifier, transform_specifier, type_phase, width_phase, precision_phase,
          copyFlags, copyDigits, is_flag, is_digit, specifier_class, last_char,
          string_view_descriptor]

theorem claim_C5_forbid_precision_rejects_dot_witness :
    string_view_descriptor.forbid_precision = true ∧
    precision_phase ['.', '2', '?'] string_view_descriptor [] =
      Phase.err Status.field_precision_not_allowed [] := by
  exact ⟨rfl, claim_C5_forbid_precision_rejects_dot.1 ['2', '?'] string_view_descriptor [] rfl⟩

/-- C6 counterexample: the claim says that for an escaped `%%` both input
characters are swallowed and a single `%` character is emitted.  The code
emits two characters: parsing `"%%"` with no descriptors succeeds with
output `"%%"`, whose length is 2, not 1. -/
theorem claim_C6_counterexample :
    find_specifier ['%', '%'] [] = (Status.correct, ['%', '%']) ∧
    (find_specifier ['%', '%'] []).2.length = 2 := by
  have h : find_specifier ['%', '%'] [] = (Status.correct, ['%', '%']) := by
    simp [find_specifier]
  exact ⟨h, by rw [h]; rfl⟩

/-- C6 amended: on a `%` immediately followed by a second `%`, both input
characters are consumed and the two-character sequence `%%` is emitted (the
percent stays escaped in the output, which is itself a printf format
string); parsing then returns to the literal-copy state without consuming
a descriptor. -/
theorem claim_C6_escaped_percent (src : List Char) (specs : List Specifier) :
    find_specifier ('%' :: '%' :: src) specs =
      ((find_specifier src specs).1, '%' :: '%' :: (find_specifier src specs).2) := by
  rw [find_specifier.eq_def]
  simp

/-- C7: `validate_and_rewrite("%% %%", [])` succeeds with output exactly
`"%% %%"`; more generally every template with zero directives parsed with
zero descriptors is emitted verbatim, and re-parsing that output with zero
descriptors reproduces it unchanged. -/
theorem claim_C7_escape_idempotent :
    find_specifier ['%', '%', ' ', '%', '%'] [] =
      (Status.correct, ['%', '%', ' ', '%', '%']) ∧
    (∀ t : List Char, no_directives t = true →
      find_specifier t [] = (Status.correct, t) ∧
      find_specifier (find_specifier t []).2 [] = (Status.correct, (find_specifier t []).2)) := by
  constructor
  · simp [find_specifier]
  · intro t hnd
    have h1 := no_directives_verbatim t.length t le_rfl hnd
    refine ⟨h1, ?_⟩
    rw [h1]
    exact no_directives_verbatim t.length t le_rfl hnd

theorem claim_C7_escape_idempotent_witness :
    no_directives ['%', '%', ' ', '%', '%'] = true ∧
    find_specifier ['%', '%', ' ', '%', '%'] [] =
      (Status.correct, ['%', '%', ' ', '%', '%']) := by
  exact ⟨by decide, (claim_C7_escape_idempotent.2 ['%', '%', ' ', '%', '%'] (by decide)).1⟩

/-- C8: the special explicit letters validate the current descriptor's
capabilities: `%c` requires promote-to-`int` (else `format_expects_char`),
`%n` requires record-position (else `format_expects_int_ptr`), `%p`
requires prints-as-pointer (else `format_expects_ptr`); in particular
`"%c"` against the 64-bit signed integer descriptor, which lacks
promote-to-`int`, fails with `format_expects_char`. -/
theorem claim_C8_special_letter_capabilities (sp : Specifier) :
    (find_specifier ['%', 'c'] [sp] =
      if sp.promotes_to_int then (Status.correct, ['%', 'c'])
      else (Status.format_expects_char, ['%'])) ∧
    (find_specifier ['%', 'n'] [sp] =
      if sp.record_position then (Status.correct, ['%', 'n'])
      else (Status.format_expects_int_ptr, ['%'])) ∧
    (find_specifier ['%', 'p'] [sp] =
      if sp.prints_as_pointer then (Status.correct, ['%', 'p'])
      else (Status.format_expects_ptr, ['%'])) ∧
    find_specifier ['%', 'c'] [long_long_descriptor] = (Status.format_expects_char, ['%']) := by
  refine ⟨?_, ?_, ?_, ?_⟩
  · by_cases h : sp.promotes_to_int <;>
      simp [find_specifier, transform_specifier, type_phase, width_phase, precision_phase,
            copyFlags, copyDigits, is_flag, is_digit, specifier_class, last_char, h]
  · by_cases h : sp.record_position <;>
      simp [find_specifier, transform_specifier, type_phase, width_phase, precision_phase,
            copyFlags, copyDigits, is_flag, is_digit, specifier_class, last_char, h]
  · by_cases h : sp.prints_as_pointer <;>
      simp [find_specifier, transform_specifier, type_phase, width_phase, precision_phase,
            copyFlags, copyDigits, is_flag, is_digit, specifier_class, last_char, h]
  · simp [find_specifier, transform_specifier, type_phase, width_phase, precision_phase,
          copyFlags, copyDigits, is_flag, is_digit, specifier_class, last_char,
          long_long_descriptor]

/-- C9: when an explicit `.*` precision consumes its promote-to-`int`
descriptor and advances, the parse additionally fails with
`field_precision_not_allowed` if the newly current descriptor (the one the
conversion letter itself will consume) carries forbid-precision — so an
explicit `.*` precision can never target a forbid-precision descriptor; in
particular `"%.*?"` against `[int, string-view]` fails that way. -/
theorem claim_C9_star_precision_forbid_check :
    (∀ (e : Char) (src : List Char) (sp sp2 : Specifier) (rest2 : List Specifier),
      sp.forbid_precision = false → sp.promotes_to_int = true → sp2.forbid_precision = true →
      precision_phase ('.' :: '*' :: e :: src) sp (sp2 :: rest2) =
        Phase.err Status.field_precision_not_allowed ['.', '*']) ∧
    find_specifier ['%', '.', '*', '?'] [int_descriptor, string_view_descriptor] =
      (Status.field_precision_not_allowed, ['%', '.', '*']) := by
  constructor
  · intro e src sp sp2 rest2 h0 h1 h2
    simp [precision_phase, h0, h1, h2]
  · simp [find_specifier, transform_specifier, type_phase, width_phase, precision_phase,
          copyFlags, copyDigits, is_flag, is_digit, specifier_class, last_char,
          int_descriptor, string_view_descriptor]

theorem claim_C9_star_precision_forbid_check_witness :
    (int_descriptor.forbid_precision = false ∧ int_descriptor.promotes_to_int = true ∧
     string_view_descriptor.forbid_precision = true) ∧
    precision_phase ['.', '*', '?'] int_descriptor [string_view_descriptor] =
      Phase.err Status.field_precision_not_allowed ['.', '*'] := by
  exact ⟨⟨rfl, rfl, rfl⟩,
    claim_C9_star_precision_forbid_check.1 '?' [] int_descriptor string_view_descriptor []
      rfl rfl rfl⟩

/-- C10: the length/type scan examines at most 4 characters; when none of
the 4 characters after the width/precision fields is a conversion letter or
the deduction character `?`, the parse fails with `conversion_lacks_type`
even though unread input remains — `conversion_lacks_type` is not produced
solely by end of input.  Concretely `"%zzzzd"` against the `int` descriptor
fails with `conversion_lacks_type` although the letter `d` is still
unread. -/
theorem claim_C10_lookahead_bounded :
    (∀ (sp : Specifier) (rest : List Specifier) (c1 c2 c3 c4 : Char) (src : List Char),
      specifier_class c1 = Category.invalid → c1 ≠ '?' →
      specifier_class c2 = Category.invalid → c2 ≠ '?' →
      specifier_class c3 = Category.invalid → c3 ≠ '?' →
      specifier_class c4 = Category.invalid → c4 ≠ '?' →
      type_phase 4 (c1 :: c2 :: c3 :: c4 :: src) sp rest =
        (Status.conversion_lacks_type, [])) ∧
    find_specifier ['%', 'z', 'z', 'z', 'z', 'd'] [int_descriptor] =
      (Status.conversion_lacks_type, ['%']) := by
  constructor
  · intro sp rest c1 c2 c3 c4 src h1 h1q h2 h2q h3 h3q h4 h4q
    rw [type_phase.eq_def]
    simp [h1, h1q]
    rw [type_phase.eq_def]
    simp [h2, h2q]
    rw [type_phase.eq_def]
    simp [h3, h3q]
    rw [type_phase.eq_def]
    simp [h4, h4q]
    rw [type_phase.eq_def]
  · simp [find_specifier, transform_specifier, type_phase, width_phase, precision_phase,
          copyFlags, copyDigits, is_flag, is_digit, specifier_class, last_char, int_descriptor]

theorem claim_C10_lookahead_bounded_witness :
    (specifier_class 'z' = Category.invalid ∧ 'z' ≠ '?') ∧
    type_phase 4 ['z', 'z', 'z', 'z', 'd'] int_descriptor [] =
      (Status.conversion_lacks_type, []) := by
  exact ⟨⟨by decide, by decide⟩,
    claim_C10_lookahead_bounded.1 int_descriptor [] 'z' 'z' 'z' 'z' ['d']
      (by decide) (by decide) (by decide) (by decide) (by decide) (by decide)
      (by decide) (by decide)⟩

end Rostd.Printx
